import Mathlib

/-!
Shallow embedding of `scripts/fetch_blobs.py`: a two-phase partial Git fetch.
Phase 1 fetches one commit plus its trees with a `blob:none` filter (falling
back to a subprocess git client on failure); a recursive walk then collects
blob identifiers missing from the local store; phase 2 fetches exactly those.

The dulwich library (transports, object store) is an external black box in
the source; it is modelled here by an explicit environment `Env` supplying
the advertised refs, the outcome of each fetch call and of bare-repo
initialisation, following the external-collaborator contract in the spec.
Fetch calls issued on the wire are recorded in a trace of `FetchCall`
values so that claims about which requests are sent can be stated.
-/

set_option autoImplicit false

deriving instance DecidableEq for Except

namespace FetchBlobs

/-- A binary object identifier (the bytes of a SHA). -/
abbrev ObjectId := List Nat

/-- One entry of a Git tree object: name bytes, mode, object id. -/
structure TreeEntry where
  path : List Nat
  mode : Nat
  sha : ObjectId
deriving DecidableEq

/-- A Git object as far as this script observes them: a commit exposes its
root tree id, a tree exposes its entry list, a blob its raw data. -/
inductive GitObject where
  | commit (tree : ObjectId)
  | tree (entries : List TreeEntry)
  | blob (data : List Nat)
deriving DecidableEq

/-- The local bare repository: its object store, as an association list from
object id to object. -/
structure Repo where
  objects : List (ObjectId × GitObject)
deriving DecidableEq

/-- Object-store lookup (dulwich `repo[sha]`, returning none for a KeyError). -/
def Repo.lookup (r : Repo) (sha : ObjectId) : Option GitObject :=
  (r.objects.find? (fun p => p.1 == sha)).map (fun p => p.2)

/-- Object-store membership (`sha in repo.object_store`). -/
def Repo.contains (r : Repo) (sha : ObjectId) : Bool :=
  (r.lookup sha).isSome

/-- A successful fetch inserts the received objects into the store. -/
def Repo.addObjects (r : Repo) (objs : List (ObjectId × GitObject)) : Repo :=
  ⟨r.objects ++ objs⟩

/-- The errors the script can surface: missing object (KeyError /
ObjectNotFoundError), object of the wrong kind (AttributeError on a tree or
commit accessor), transport failures, invalid hex (ValueError), filesystem
failure on store creation, and exhausted recursion depth (the embedding of a
non-terminating walk on a pathological store). -/
inductive GitErr where
  | objectNotFound (sha : ObjectId)
  | notATree (sha : ObjectId)
  | notACommit (sha : ObjectId)
  | fetchError (code : Nat)
  | valueError
  | filesystemError
  | outOfFuel
deriving DecidableEq

/-- A transport client: either the one resolved from the repository URL by
get_transport_and_path (the primary transport), or a SubprocessGitClient. -/
inductive Client where
  | resolved (url : String)
  | subprocess
deriving DecidableEq

/-- The parameters of one fetch request as issued on a client: the computed
want list, the filter spec, the depth, and the protocol version. `none`
means the argument was left at the library default. -/
structure FetchParams where
  wants : List ObjectId
  filterSpec : Option String
  depth : Option Nat
  protocolVersion : Option Nat
deriving DecidableEq

/-- One fetch call recorded on the wire: which client, which target
(server path or URL), which parameters. -/
structure FetchCall where
  client : Client
  target : String
  params : FetchParams
deriving DecidableEq

/-- An advertised ref, as passed to determine_wants. -/
abbrev Ref := String × ObjectId

/-- The external world: the advertised refs, the server path derived from a
URL, the outcome of initialising a bare repo at a directory, the objects
delivered (or the error raised) by each fetch call, and the name of the
temporary directory mkdtemp would create. -/
structure Env where
  refs : List Ref
  pathOf : String → String
  initBare : String → Except GitErr Repo
  fetchOutcome : Client → String → FetchParams → Except GitErr (List (ObjectId × GitObject))
  mkdtemp : String

/-- dulwich get_transport_and_path: resolve a client and a path from a URL. -/
def get_transport_and_path (env : Env) (url : String) : Client × String :=
  (Client.resolved url, env.pathOf url)

/-- One client.fetch call: the client applies determine_wants to the
advertised refs, issues the request, and on success the received objects are
inserted into the store. Returns the trace of issued calls together with
the result. -/
def clientFetch (env : Env) (c : Client) (target : String)
    (determine_wants : List Ref → Except GitErr (List ObjectId))
    (filterSpec : Option String) (depth : Option Nat) (protocolVersion : Option Nat)
    (repo : Repo) : List FetchCall × Except GitErr Repo :=
  match determine_wants env.refs with
  | Except.error e => ([], Except.error e)
  | Except.ok ws =>
    let params : FetchParams := ⟨ws, filterSpec, depth, protocolVersion⟩
    match env.fetchOutcome c target params with
    | Except.error e => ([⟨c, target, params⟩], Except.error e)
    | Except.ok objs => ([⟨c, target, params⟩], Except.ok (repo.addObjects objs))

/-- The value of one hex digit, none for a non-digit. -/
def hexVal (c : Char) : Option Nat :=
  if c.isDigit then some (c.toNat - 48)
  else if 'a' ≤ c ∧ c ≤ 'f' then some (c.toNat - 87)
  else if 'A' ≤ c ∧ c ≤ 'F' then some (c.toNat - 55)
  else none

/-- Python bytes.fromhex on a hex string (none models the ValueError). -/
def bytesFromHex : List Char → Option (List Nat)
  | [] => some []
  | [_] => none
  | c1 :: c2 :: rest =>
    match hexVal c1, hexVal c2, bytesFromHex rest with
    | some hi, some lo, some bs => some ((16 * hi + lo) :: bs)
    | _, _, _ => none

/-- fetch_commit: create the bare store, resolve a transport, and fetch the
single commit with filter blob:none, depth 1, protocol version 2; on any
error retry the identical request on a SubprocessGitClient against the
original URL. -/
def fetch_commit (env : Env) (repo_url : String) (commit_sha : List Char)
    (repo_path : String) : List FetchCall × Except GitErr Repo :=
  match env.initBare repo_path with
  | Except.error e => ([], Except.error e)
  | Except.ok repo =>
    let cp := get_transport_and_path env repo_url
    let wants : List Ref → Except GitErr (List ObjectId) := fun _ =>
      match bytesFromHex commit_sha with
      | some b => Except.ok [b]
      | none => Except.error GitErr.valueError
    let r1 := clientFetch env cp.1 cp.2 wants (some "blob:none") (some 1) (some 2) repo
    match r1.2 with
    | Except.ok repo1 => (r1.1, Except.ok repo1)
    | Except.error _ =>
      let r2 := clientFetch env Client.subprocess repo_url wants (some "blob:none") (some 1) (some 2) repo
      (r1.1 ++ r2.1, r2.2)

/-- The body of the for-loop of collect_missing_blobs over the entries of
one tree, abstracted over the recursive call: a directory entry is expanded
through the recursion, any other entry is appended exactly when absent from
the store. -/
def processEntries (recur : ObjectId → Except GitErr (List ObjectId)) (repo : Repo) :
    List TreeEntry → Except GitErr (List ObjectId)
  | [] => Except.ok []
  | e :: rest =>
    if e.mode &&& 0o40000 ≠ 0 then
      match recur e.sha with
      | Except.error err => Except.error err
      | Except.ok sub =>
        match processEntries recur repo rest with
        | Except.error err => Except.error err
        | Except.ok more => Except.ok (sub ++ more)
    else if repo.contains e.sha then
      processEntries recur repo rest
    else
      match processEntries recur repo rest with
      | Except.error err => Except.error err
      | Except.ok more => Except.ok (e.sha :: more)

/-- collect_missing_blobs: look the tree up in the store and walk its
entries depth first. The fuel argument embeds the Python call stack: it
bounds the tree nesting depth and is absent from the source, which would
recurse forever on a cyclic store. -/
def collect_missing_blobs (fuel : Nat) (repo : Repo) (tree_sha : ObjectId) :
    Except GitErr (List ObjectId) :=
  match fuel with
  | 0 => Except.error GitErr.outOfFuel
  | f + 1 =>
    match repo.lookup tree_sha with
    | none => Except.error (GitErr.objectNotFound tree_sha)
    | some (GitObject.tree entries) =>
      processEntries (fun sha => collect_missing_blobs f repo sha) repo entries
    | some _ => Except.error (GitErr.notATree tree_sha)

/-- fetch_blobs: no-op on an empty want list, otherwise one fetch request
for exactly the given blob ids, protocol version 2, no filter, no depth. -/
def fetch_blobs (env : Env) (client : Client) (path : String) (repo : Repo)
    (blobs : List ObjectId) : List FetchCall × Except GitErr Repo :=
  if blobs.isEmpty then ([], Except.ok repo)
  else clientFetch env client path (fun _ => Except.ok blobs) none none (some 2) repo

/-- main: fetch the commit into the target directory (or the mkdtemp
default), walk its root tree for missing blobs, fetch those on a freshly
resolved transport, and print the summary line. Returns the trace of all
fetch calls and either the printed line or the propagated error. -/
def main (env : Env) (fuel : Nat) (repo_url : String) (commit : List Char)
    (target : Option String) : List FetchCall × Except GitErr String :=
  let tmpdir := target.getD env.mkdtemp
  let r1 := fetch_commit env repo_url commit tmpdir
  match r1.2 with
  | Except.error e => (r1.1, Except.error e)
  | Except.ok repo =>
    match bytesFromHex commit with
    | none => (r1.1, Except.error GitErr.valueError)
    | some b =>
      match repo.lookup b with
      | none => (r1.1, Except.error (GitErr.objectNotFound b))
      | some (GitObject.commit treeId) =>
        match collect_missing_blobs fuel repo treeId with
        | Except.error e => (r1.1, Except.error e)
        | Except.ok missing_blobs =>
          let cp := get_transport_and_path env repo_url
          let r2 := fetch_blobs env cp.1 cp.2 repo missing_blobs
          match r2.2 with
          | Except.error e => (r1.1 ++ r2.1, Except.error e)
          | Except.ok _ =>
            let n := missing_blobs.length
            (r1.1 ++ r2.1, Except.ok ("Fetched " ++ toString n ++ " blobs into " ++ tmpdir))
      | some _ => (r1.1, Except.error (GitErr.notACommit b))

/-! ## Specification-side description of the walk

The spec describes the collector entry-wise: a sub-directory entry is
replaced by the fully expanded recursive result, any other entry
contributes its identifier exactly when it is absent from the store, and
the contributions are concatenated in the native entry order. The
definitions below transcribe that wording; the refinement theorem for C1
relates them to the source-translated collector. -/

/-- The contribution of a single tree entry, as worded in the spec. -/
def specEntry (fuel : Nat) (repo : Repo) (e : TreeEntry) : Except GitErr (List ObjectId) :=
  if e.mode &&& 0o40000 ≠ 0 then collect_missing_blobs fuel repo e.sha
  else if repo.contains e.sha then Except.ok []
  else Except.ok [e.sha]

/-- Concatenation of the per-entry contributions in entry order, stopping
at the first error. -/
def specWalk (fuel : Nat) (repo : Repo) : List TreeEntry → Except GitErr (List ObjectId)
  | [] => Except.ok []
  | e :: rest =>
    match specEntry fuel repo e with
    | Except.error err => Except.error err
    | Except.ok xs =>
      match specWalk fuel repo rest with
      | Except.error err => Except.error err
      | Except.ok ys => Except.ok (xs ++ ys)

/-! ## Concrete fixtures

Small concrete stores and environments used to witness the theorems on
explicit inputs. -/

/-- A store holding one tree whose single file entry points at an absent
blob. -/
def rFile : Repo := ⟨[([1], GitObject.tree [⟨[10], 0o100644, [3]⟩])]⟩

/-- A store holding a tree with a gitlink entry (whose target is a present
empty tree) and a symlink entry pointing at an absent object. -/
def rModes : Repo :=
  ⟨[([1], GitObject.tree [⟨[20], 0o160000, [8]⟩, ⟨[21], 0o120000, [9]⟩]),
    ([8], GitObject.tree [])]⟩

/-- The objects delivered by a successful phase-1 fetch in the fixtures:
commit 01 with root tree 02 holding one file entry for blob 03. -/
def phase1Objs : List (ObjectId × GitObject) :=
  [([1], GitObject.commit [2]), ([2], GitObject.tree [⟨[10], 0o100644, [3]⟩])]

/-- The store after the fixture phase-1 fetch. -/
def repoOk1 : Repo := ⟨phase1Objs⟩

/-- An environment in which every fetch succeeds: a filtered request
delivers the commit and tree, an unfiltered one delivers blob 03. -/
def envOk : Env where
  refs := []
  pathOf := fun u => u
  initBare := fun _ => Except.ok ⟨[]⟩
  fetchOutcome := fun _ _ p =>
    if p.filterSpec.isSome then Except.ok phase1Objs
    else Except.ok [([3], GitObject.blob [])]
  mkdtemp := "t"

/-- An environment in which every fetch fails, with distinct errors on the
primary and subprocess transports. -/
def envFail : Env where
  refs := []
  pathOf := fun u => u
  initBare := fun _ => Except.ok ⟨[]⟩
  fetchOutcome := fun c _ _ =>
    match c with
    | Client.resolved _ => Except.error (GitErr.fetchError 1)
    | Client.subprocess => Except.error (GitErr.fetchError 2)
  mkdtemp := "t"

/-- An environment in which the primary transport fails on filtered
requests while the subprocess transport succeeds, and unfiltered requests
on the primary transport succeed. -/
def envFallback : Env where
  refs := []
  pathOf := fun u => u
  initBare := fun _ => Except.ok ⟨[]⟩
  fetchOutcome := fun c _ p =>
    match c with
    | Client.subprocess => Except.ok phase1Objs
    | Client.resolved _ =>
      if p.filterSpec.isSome then Except.error (GitErr.fetchError 0)
      else Except.ok [([3], GitObject.blob [])]
  mkdtemp := "t"

/-- An environment whose phase-1 fetch delivers the commit but not its
tree, so the walk hits a missing tree object. -/
def envNoTree : Env where
  refs := []
  pathOf := fun u => u
  initBare := fun _ => Except.ok ⟨[]⟩
  fetchOutcome := fun _ _ _ => Except.ok [([1], GitObject.commit [2])]
  mkdtemp := "t"

/-! ## Helper lemmas -/

/-- The loop body of the collector agrees with the spec wording, entry by
entry. -/
theorem processEntries_eq_specWalk (fuel : Nat) (repo : Repo) (l : List TreeEntry) :
    processEntries (fun sha => collect_missing_blobs fuel repo sha) repo l =
      specWalk fuel repo l := by
  induction l with
  | nil => rfl
  | cons e rest ih =>
    simp only [processEntries, specWalk, specEntry]
    by_cases hd : e.mode &&& 0o40000 ≠ 0
    · simp only [if_pos hd]
      cases collect_missing_blobs fuel repo e.sha with
      | error err => rfl
      | ok xs => simp only [ih]
    · simp only [if_neg hd]
      by_cases hc : repo.contains e.sha
      · simp only [if_pos hc, ih]
        cases specWalk fuel repo rest with
        | error err => rfl
        | ok ys => simp
      · simp only [if_neg hc, ih]
        cases specWalk fuel repo rest with
        | error err => rfl
        | ok ys => simp

/-- If the recursive call only ever returns absent identifiers, so does the
loop over a list of entries. -/
theorem processEntries_absent (repo : Repo) (recur : ObjectId → Except GitErr (List ObjectId))
    (hrec : ∀ s l, recur s = Except.ok l → ∀ x ∈ l, repo.contains x = false) :
    ∀ es l, processEntries recur repo es = Except.ok l → ∀ x ∈ l, repo.contains x = false := by
  intro es
  induction es with
  | nil =>
    intro l h x hx
    simp only [processEntries] at h
    cases h
    cases hx
  | cons e rest ih =>
    intro l h x hx
    simp only [processEntries] at h
    by_cases hd : e.mode &&& 0o40000 ≠ 0
    · rw [if_pos hd] at h
      cases hsub : recur e.sha with
      | error err => rw [hsub] at h; exact Except.noConfusion h
      | ok sub =>
        rw [hsub] at h
        cases hrest : processEntries recur repo rest with
        | error err => rw [hrest] at h; exact Except.noConfusion h
        | ok more =>
          rw [hrest] at h
          cases h
          rcases List.mem_append.mp hx with hx1 | hx2
          · exact hrec e.sha sub hsub x hx1
          · exact ih more hrest x hx2
    · rw [if_neg hd] at h
      by_cases hc : repo.contains e.sha
      · rw [if_pos hc] at h
        exact ih l h x hx
      · rw [if_neg hc] at h
        cases hrest : processEntries recur repo rest with
        | error err => rw [hrest] at h; exact Except.noConfusion h
        | ok more =>
          rw [hrest] at h
          cases h
          rcases List.mem_cons.mp hx with hx1 | hx2
          · subst hx1; simpa using hc
          · exact ih more hrest x hx2

/-- Unfolding of the collector loop at a directory entry. -/
theorem processEntries_cons_dir (recur : ObjectId → Except GitErr (List ObjectId))
    (repo : Repo) (e : TreeEntry) (rest : List TreeEntry)
    (hd : e.mode &&& 0o40000 ≠ 0) :
    processEntries recur repo (e :: rest) =
      match recur e.sha with
      | Except.error err => Except.error err
      | Except.ok sub =>
        match processEntries recur repo rest with
        | Except.error err => Except.error err
        | Except.ok more => Except.ok (sub ++ more) := by
  simp [processEntries, hd]

/-- Unfolding of the collector loop at a non-directory entry. -/
theorem processEntries_cons_file (recur : ObjectId → Except GitErr (List ObjectId))
    (repo : Repo) (e : TreeEntry) (rest : List TreeEntry)
    (hd : ¬ (e.mode &&& 0o40000 ≠ 0)) :
    processEntries recur repo (e :: rest) =
      if repo.contains e.sha then processEntries recur repo rest
      else
        match processEntries recur repo rest with
        | Except.error err => Except.error err
        | Except.ok more => Except.ok (e.sha :: more) := by
  simp [processEntries, hd]

/-- Every identifier returned by the collector is absent from the store. -/
theorem collect_absent :
    ∀ (fuel : Nat) (repo : Repo) (sha : ObjectId) (l : List ObjectId),
      collect_missing_blobs fuel repo sha = Except.ok l → ∀ x ∈ l, repo.contains x = false := by
  intro fuel
  induction fuel with
  | zero =>
    intro repo sha l h
    exact Except.noConfusion h
  | succ f ih =>
    intro repo sha l h x hx
    simp only [collect_missing_blobs] at h
    cases hlk : repo.lookup sha with
    | none => rw [hlk] at h; exact Except.noConfusion h
    | some obj =>
      rw [hlk] at h
      cases obj with
      | commit t => exact Except.noConfusion h
      | blob d => exact Except.noConfusion h
      | tree entries =>
        exact processEntries_absent repo _ (fun s l' h' => ih repo s l' h') entries l h x hx

/-! ## Claim theorems -/

/-- Claim C1: on a tree found in the store, the collector equals the
spec-worded walk: depth-first in native entry order, recursing through
directory entries with full expansion before later entries, and appending
a non-directory identifier exactly when it is absent from the store. -/
theorem collect_missing_blobs_spec_refinement (fuel : Nat) (repo : Repo) (tree_sha : ObjectId)
    (entries : List TreeEntry)
    (h : repo.lookup tree_sha = some (GitObject.tree entries)) :
    collect_missing_blobs (fuel + 1) repo tree_sha = specWalk fuel repo entries := by
  simp only [collect_missing_blobs, h]
  exact processEntries_eq_specWalk fuel repo entries

/-- Witness for C1 on a concrete store. -/
theorem collect_missing_blobs_spec_refinement_witness :
    rFile.lookup [1] = some (GitObject.tree [⟨[10], 0o100644, [3]⟩]) ∧
    collect_missing_blobs 1 rFile [1] = specWalk 0 rFile [⟨[10], 0o100644, [3]⟩] :=
  ⟨rfl, collect_missing_blobs_spec_refinement 0 rFile [1] [⟨[10], 0o100644, [3]⟩] rfl⟩

/-- Claim C4: every identifier the collector records is absent from the
store at walk time, so the phase-2 want list never names an object already
present. -/
theorem collect_missing_blobs_minimality (fuel : Nat) (repo : Repo) (tree_sha : ObjectId)
    (missing : List ObjectId)
    (h : collect_missing_blobs fuel repo tree_sha = Except.ok missing)
    (x : ObjectId) (hx : x ∈ missing) : repo.contains x = false :=
  collect_absent fuel repo tree_sha missing h x hx

/-- Witness for C4 on a concrete store. -/
theorem collect_missing_blobs_minimality_witness :
    collect_missing_blobs 1 rFile [1] = Except.ok [[3]] ∧ rFile.contains [3] = false :=
  ⟨rfl, collect_missing_blobs_minimality 1 rFile [1] [[3]] rfl [3] (by decide)⟩

/-- Claim C2: when the primary phase-1 fetch raises, the identical request
(same want list, blob:none filter, depth 1, protocol version 2) is repeated
on a subprocess client against the original URL, and a failure of that
fallback propagates to the caller with no further attempt. -/
theorem fetch_commit_fallback (env : Env) (url : String) (sha : List Char) (path : String)
    (r0 : Repo) (b : ObjectId) (e1 : GitErr)
    (hinit : env.initBare path = Except.ok r0)
    (hhex : bytesFromHex sha = some b)
    (hfail : env.fetchOutcome (Client.resolved url) (env.pathOf url)
        ⟨[b], some "blob:none", some 1, some 2⟩ = Except.error e1) :
    (fetch_commit env url sha path).1 =
      [⟨Client.resolved url, env.pathOf url, ⟨[b], some "blob:none", some 1, some 2⟩⟩,
       ⟨Client.subprocess, url, ⟨[b], some "blob:none", some 1, some 2⟩⟩] ∧
    (∀ e2 : GitErr,
      env.fetchOutcome Client.subprocess url ⟨[b], some "blob:none", some 1, some 2⟩ =
        Except.error e2 →
      (fetch_commit env url sha path).2 = Except.error e2) := by
  constructor
  · cases h2 : env.fetchOutcome Client.subprocess url ⟨[b], some "blob:none", some 1, some 2⟩ with
    | error e2 => simp [fetch_commit, get_transport_and_path, clientFetch, hinit, hhex, hfail, h2]
    | ok objs => simp [fetch_commit, get_transport_and_path, clientFetch, hinit, hhex, hfail, h2]
  · intro e2 h2
    simp [fetch_commit, get_transport_and_path, clientFetch, hinit, hhex, hfail, h2]

/-- Witness for C2 on a concrete environment whose transports both fail. -/
theorem fetch_commit_fallback_witness :
    (fetch_commit envFail "u" ['0', '1'] "d").1 =
      [⟨Client.resolved "u", "u", ⟨[[1]], some "blob:none", some 1, some 2⟩⟩,
       ⟨Client.subprocess, "u", ⟨[[1]], some "blob:none", some 1, some 2⟩⟩] ∧
    (fetch_commit envFail "u" ['0', '1'] "d").2 = Except.error (GitErr.fetchError 2) := by
  have h := fetch_commit_fallback envFail "u" ['0', '1'] "d" ⟨[]⟩ [1] (GitErr.fetchError 1)
    rfl rfl rfl
  exact ⟨h.1, h.2 (GitErr.fetchError 2) rfl⟩

/-- Claim C3: after a successful bare-store initialisation, the first
phase-1 request is issued on the resolved transport with wants exactly the
hex-decoded commit id, filter blob:none, depth 1, protocol version 2; and
if initialisation fails no request is issued at all. -/
theorem fetch_commit_phase1_request (env : Env) (url : String) (sha : List Char) (path : String) :
    (∀ (r0 : Repo) (b : ObjectId),
      env.initBare path = Except.ok r0 → bytesFromHex sha = some b →
      (fetch_commit env url sha path).1.head? =
        some ⟨Client.resolved url, env.pathOf url, ⟨[b], some "blob:none", some 1, some 2⟩⟩) ∧
    (∀ e : GitErr, env.initBare path = Except.error e →
      fetch_commit env url sha path = ([], Except.error e)) := by
  constructor
  · intro r0 b h1 h2
    cases h3 : env.fetchOutcome (Client.resolved url) (env.pathOf url)
        ⟨[b], some "blob:none", some 1, some 2⟩ with
    | error e1 =>
      cases h4 : env.fetchOutcome Client.subprocess url ⟨[b], some "blob:none", some 1, some 2⟩ with
      | error e2 => simp [fetch_commit, get_transport_and_path, clientFetch, h1, h2, h3, h4]
      | ok objs => simp [fetch_commit, get_transport_and_path, clientFetch, h1, h2, h3, h4]
    | ok objs => simp [fetch_commit, get_transport_and_path, clientFetch, h1, h2, h3]
  · intro e h
    simp [fetch_commit, h]

/-- Witness for C3 on a concrete succeeding environment. -/
theorem fetch_commit_phase1_request_witness :
    (fetch_commit envOk "u" ['0', '1'] "d").1.head? =
      some ⟨Client.resolved "u", "u", ⟨[[1]], some "blob:none", some 1, some 2⟩⟩ :=
  (fetch_commit_phase1_request envOk "u" ['0', '1'] "d").1 ⟨[]⟩ [1] rfl rfl

/-- Claim C5: on a non-empty missing-blob sequence, phase 2 issues exactly
one request, on the given client, whose wants are exactly the given blob
ids, with protocol version 2, no depth and no filter; an error from that
request propagates with no fallback attempt. -/
theorem fetch_blobs_request (env : Env) (client : Client) (path : String) (repo : Repo)
    (blobs : List ObjectId) (hne : blobs ≠ []) :
    (fetch_blobs env client path repo blobs).1 =
      [⟨client, path, ⟨blobs, none, none, some 2⟩⟩] ∧
    (∀ e : GitErr,
      env.fetchOutcome client path ⟨blobs, none, none, some 2⟩ = Except.error e →
      (fetch_blobs env client path repo blobs).2 = Except.error e) := by
  obtain ⟨b, bs, rfl⟩ := List.exists_cons_of_ne_nil hne
  constructor
  · cases h2 : env.fetchOutcome client path ⟨b :: bs, none, none, some 2⟩ with
    | error e => simp [fetch_blobs, clientFetch, h2]
    | ok objs => simp [fetch_blobs, clientFetch, h2]
  · intro e h2
    simp [fetch_blobs, clientFetch, h2]

/-- Witness for C5 on a concrete failing environment. -/
theorem fetch_blobs_request_witness :
    (fetch_blobs envFail (Client.resolved "u") "u" ⟨[]⟩ [[3]]).1 =
      [⟨Client.resolved "u", "u", ⟨[[3]], none, none, some 2⟩⟩] ∧
    (fetch_blobs envFail (Client.resolved "u") "u" ⟨[]⟩ [[3]]).2 =
      Except.error (GitErr.fetchError 1) := by
  have h := fetch_blobs_request envFail (Client.resolved "u") "u" ⟨[]⟩ [[3]] (by decide)
  exact ⟨h.1, h.2 (GitErr.fetchError 1) rfl⟩

/-- Claim C6: on an empty missing-blob sequence, phase 2 is a no-op: no
fetch call is issued and it returns without error. -/
theorem fetch_blobs_noop (env : Env) (client : Client) (path : String) (repo : Repo) :
    fetch_blobs env client path repo [] = ([], Except.ok repo) :=
  rfl

/-- Claim C7: on a successful run the program prints exactly one summary
line, Fetched N blobs into dir, where N is the length of the missing-blob
sequence requested in phase 2 (duplicates included, 0 when it was empty)
and dir is the target directory of the object store. -/
theorem main_success_summary (env : Env) (fuel : Nat) (url : String) (commit : List Char)
    (tmpdir : String) (tr1 tr2 : List FetchCall) (repo repo2 : Repo) (b treeId : ObjectId)
    (missing : List ObjectId)
    (h1 : fetch_commit env url commit tmpdir = (tr1, Except.ok repo))
    (h2 : bytesFromHex commit = some b)
    (h3 : repo.lookup b = some (GitObject.commit treeId))
    (h4 : collect_missing_blobs fuel repo treeId = Except.ok missing)
    (h5 : fetch_blobs env (Client.resolved url) (env.pathOf url) repo missing =
      (tr2, Except.ok repo2)) :
    main env fuel url commit (some tmpdir) =
      (tr1 ++ tr2,
       Except.ok ("Fetched " ++ toString missing.length ++ " blobs into " ++ tmpdir)) := by
  simp [main, get_transport_and_path, h1, h2, h3, h4, h5]

/-- Witness for C7 on a concrete succeeding environment. -/
theorem main_success_summary_witness :
    main envOk 1 "u" ['0', '1'] (some "tmp") =
      ([⟨Client.resolved "u", "u", ⟨[[1]], some "blob:none", some 1, some 2⟩⟩,
        ⟨Client.resolved "u", "u", ⟨[[3]], none, none, some 2⟩⟩],
       Except.ok "Fetched 1 blobs into tmp") :=
  main_success_summary envOk 1 "u" ['0', '1'] "tmp"
    [⟨Client.resolved "u", "u", ⟨[[1]], some "blob:none", some 1, some 2⟩⟩]
    [⟨Client.resolved "u", "u", ⟨[[3]], none, none, some 2⟩⟩]
    repoOk1 ⟨repoOk1.objects ++ [([3], GitObject.blob [])]⟩ [1] [2] [[3]]
    rfl rfl rfl rfl rfl

/-- Claim C8: a tree or sub-tree missing from the store makes the walk fail
with an object-not-found error, a failing sub-walk aborts the enclosing
loop with the same error, and main propagates the error unrecovered. -/
theorem object_not_found_fatal :
    (∀ (fuel : Nat) (repo : Repo) (sha : ObjectId), repo.lookup sha = none →
      collect_missing_blobs (fuel + 1) repo sha =
        Except.error (GitErr.objectNotFound sha)) ∧
    (∀ (recur : ObjectId → Except GitErr (List ObjectId)) (repo : Repo) (e : TreeEntry)
        (rest : List TreeEntry) (err : GitErr),
      e.mode &&& 0o40000 ≠ 0 → recur e.sha = Except.error err →
      processEntries recur repo (e :: rest) = Except.error err) ∧
    (∀ (env : Env) (fuel : Nat) (url : String) (commit : List Char) (tmpdir : String)
        (tr1 : List FetchCall) (repo : Repo) (b treeId s : ObjectId),
      fetch_commit env url commit tmpdir = (tr1, Except.ok repo) →
      bytesFromHex commit = some b →
      repo.lookup b = some (GitObject.commit treeId) →
      collect_missing_blobs fuel repo treeId = Except.error (GitErr.objectNotFound s) →
      main env fuel url commit (some tmpdir) =
        (tr1, Except.error (GitErr.objectNotFound s))) := by
  refine ⟨?_, ?_, ?_⟩
  · intro fuel repo sha h
    simp [collect_missing_blobs, h]
  · intro recur repo e rest err hd herr
    simp [processEntries, hd, herr]
  · intro env fuel url commit tmpdir tr1 repo b treeId s h1 h2 h3 h4
    simp [main, h1, h2, h3, h4]

/-- Witness for C8 on concrete inputs, including a run of main over an
environment whose phase-1 fetch does not deliver the tree. -/
theorem object_not_found_fatal_witness :
    collect_missing_blobs 1 ⟨[]⟩ [7] = Except.error (GitErr.objectNotFound [7]) ∧
    processEntries (fun _ => Except.error (GitErr.objectNotFound [8])) ⟨[]⟩
      [⟨[20], 0o40000, [8]⟩] = Except.error (GitErr.objectNotFound [8]) ∧
    main envNoTree 1 "u" ['0', '1'] (some "d") =
      ([⟨Client.resolved "u", "u", ⟨[[1]], some "blob:none", some 1, some 2⟩⟩],
       Except.error (GitErr.objectNotFound [2])) :=
  ⟨object_not_found_fatal.1 0 ⟨[]⟩ [7] rfl,
   object_not_found_fatal.2.1 (fun _ => Except.error (GitErr.objectNotFound [8])) ⟨[]⟩
     ⟨[20], 0o40000, [8]⟩ [] (GitErr.objectNotFound [8]) (by decide) rfl,
   object_not_found_fatal.2.2 envNoTree 1 "u" ['0', '1'] "d"
     [⟨Client.resolved "u", "u", ⟨[[1]], some "blob:none", some 1, some 2⟩⟩]
     ⟨[([1], GitObject.commit [2])]⟩ [1] [2] [2] rfl rfl rfl rfl⟩

/-- Claim C9: the sub-directory test is the single bit mask mode AND
0o40000, so a gitlink entry (mode 0o160000) is recursed into like a
sub-tree, its identifier never membership-checked or collected, while a
symlink entry (mode 0o120000) is treated like a file entry and collected
exactly when absent. -/
theorem gitlink_symlink_mode_dispatch (fuel : Nat) (repo : Repo) (tree_sha gsha lsha : ObjectId)
    (gname lname : List Nat)
    (h : repo.lookup tree_sha =
      some (GitObject.tree [⟨gname, 0o160000, gsha⟩, ⟨lname, 0o120000, lsha⟩])) :
    collect_missing_blobs (fuel + 1) repo tree_sha =
      match collect_missing_blobs fuel repo gsha with
      | Except.error err => Except.error err
      | Except.ok sub =>
        Except.ok (sub ++ (if repo.contains lsha then [] else [lsha])) := by
  have hg : (0o160000 : Nat) &&& 0o40000 ≠ 0 := by decide
  have hl : ¬ ((0o120000 : Nat) &&& 0o40000 ≠ 0) := by decide
  simp only [collect_missing_blobs, h]
  rw [processEntries_cons_dir _ _ _ _ hg]
  rw [processEntries_cons_file _ _ _ _ hl]
  cases hco : collect_missing_blobs fuel repo gsha with
  | error err => rfl
  | ok sub =>
    cases hc : repo.contains lsha
    · rfl
    · rfl

/-- Witness for C9 on a concrete store holding a gitlink to a present
empty tree and a symlink to an absent object. -/
theorem gitlink_symlink_mode_dispatch_witness :
    rModes.lookup [1] =
      some (GitObject.tree [⟨[20], 0o160000, [8]⟩, ⟨[21], 0o120000, [9]⟩]) ∧
    collect_missing_blobs 2 rModes [1] =
      match collect_missing_blobs 1 rModes [8] with
      | Except.error err => Except.error err
      | Except.ok sub =>
        Except.ok (sub ++ (if rModes.contains [9] then [] else [[9]])) :=
  ⟨rfl, gitlink_symlink_mode_dispatch 1 rModes [1] [8] [9] [20] [21] rfl⟩

/-- Claim C10: phase 2 is issued on a freshly resolved primary transport
derived from the repository URL, even when phase 1 succeeded only through
the subprocess fallback. -/
theorem phase2_uses_primary_transport (env : Env) (fuel : Nat) (url : String)
    (commit : List Char) (tmpdir : String) (r0 : Repo) (b treeId : ObjectId)
    (objs : List (ObjectId × GitObject)) (e1 : GitErr) (missing : List ObjectId)
    (hinit : env.initBare tmpdir = Except.ok r0)
    (hhex : bytesFromHex commit = some b)
    (hfail : env.fetchOutcome (Client.resolved url) (env.pathOf url)
      ⟨[b], some "blob:none", some 1, some 2⟩ = Except.error e1)
    (hfb : env.fetchOutcome Client.subprocess url
      ⟨[b], some "blob:none", some 1, some 2⟩ = Except.ok objs)
    (hlk : (r0.addObjects objs).lookup b = some (GitObject.commit treeId))
    (hcol : collect_missing_blobs fuel (r0.addObjects objs) treeId = Except.ok missing)
    (hne : missing ≠ []) :
    (main env fuel url commit (some tmpdir)).1 =
      [⟨Client.resolved url, env.pathOf url, ⟨[b], some "blob:none", some 1, some 2⟩⟩,
       ⟨Client.subprocess, url, ⟨[b], some "blob:none", some 1, some 2⟩⟩,
       ⟨Client.resolved url, env.pathOf url, ⟨missing, none, none, some 2⟩⟩] := by
  obtain ⟨m, ms, rfl⟩ := List.exists_cons_of_ne_nil hne
  have hfc : fetch_commit env url commit tmpdir =
      ([⟨Client.resolved url, env.pathOf url, ⟨[b], some "blob:none", some 1, some 2⟩⟩,
        ⟨Client.subprocess, url, ⟨[b], some "blob:none", some 1, some 2⟩⟩],
       Except.ok (r0.addObjects objs)) := by
    simp [fetch_commit, get_transport_and_path, clientFetch, hinit, hhex, hfail, hfb]
  cases h2 : env.fetchOutcome (Client.resolved url) (env.pathOf url)
      ⟨m :: ms, none, none, some 2⟩ with
  | error e =>
    simp [main, get_transport_and_path, fetch_blobs, clientFetch, hfc, hhex, hlk, hcol, h2]
  | ok o =>
    simp [main, get_transport_and_path, fetch_blobs, clientFetch, hfc, hhex, hlk, hcol, h2]

/-- Witness for C10 on a concrete environment whose primary transport
rejects the filtered fetch while the subprocess fallback delivers it. -/
theorem phase2_uses_primary_transport_witness :
    (main envFallback 1 "u" ['0', '1'] (some "d")).1 =
      [⟨Client.resolved "u", "u", ⟨[[1]], some "blob:none", some 1, some 2⟩⟩,
       ⟨Client.subprocess, "u", ⟨[[1]], some "blob:none", some 1, some 2⟩⟩,
       ⟨Client.resolved "u", "u", ⟨[[3]], none, none, some 2⟩⟩] :=
  phase2_uses_primary_transport envFallback 1 "u" ['0', '1'] "d" ⟨[]⟩ [1] [2]
    phase1Objs (GitErr.fetchError 0) [[3]] rfl rfl rfl rfl rfl rfl (by decide)

end FetchBlobs
